import Mathlib

/-!
Verification development for the LMS ledger-and-billing core
(Django app `accounts`: `models.py` and `views.py`).

Monetary amounts are modelled as exact rationals (`ℚ`), mirroring Python
`Decimal` arithmetic.  Database rows are modelled as Lean lists; each row is
represented by the fields the modelled code actually reads.  Strings
(bill numbers) are modelled as lists of character codes (`List Nat`), with
lexicographic comparison `listLt` mirroring both Python string comparison and
the binary collation used by `order_by` on a char column.
-/

namespace LMS

/-- A shop, seen through the aggregates the credit engine reads:
`deposits` carries the `amount` column of the shop's `Deposit` rows,
`bills` the `total_amount` column of its `Bill` rows, and
`payments` the `amount` column of its `Payment` rows
(`models.py`, class `Shop`). -/
structure Shop where
  deposits : List ℚ
  bills : List ℚ
  payments : List ℚ
deriving DecidableEq

/-- `Shop.total_deposits` (`models.py` line 59): sum of deposit amounts, `0` when empty. -/
def Shop.total_deposits (s : Shop) : ℚ := s.deposits.sum

/-- `Shop.total_bills` (`models.py` line 64): sum of bill `total_amount`s, `0` when empty. -/
def Shop.total_bills (s : Shop) : ℚ := s.bills.sum

/-- `Shop.total_payments` (`models.py` line 69): sum of payment amounts, `0` when empty. -/
def Shop.total_payments (s : Shop) : ℚ := s.payments.sum

/-- `Shop.pending_amount` (`models.py` line 74): bills minus payments. -/
def Shop.pending_amount (s : Shop) : ℚ := s.total_bills - s.total_payments

/-- `Shop.credit_limit` (`models.py` line 79): five times total deposits. -/
def Shop.credit_limit (s : Shop) : ℚ := s.total_deposits * 5

/-- `Shop.can_create_bill` (`models.py` line 83): `pending_amount < credit_limit`. -/
def Shop.can_create_bill (s : Shop) : Bool :=
  decide (s.pending_amount < s.credit_limit)

/-- The global `Settings` singleton (`models.py`, class `Settings`). -/
structure Settings where
  gunny_bag_cost : ℚ
deriving DecidableEq

/-- A `BillItem` row (`models.py`, class `BillItem`). -/
structure BillItem where
  number_of_bags : Nat
  weight_kg : ℚ
  rate_per_kg : ℚ
  total_price : ℚ
  gunny_cost : ℚ
deriving DecidableEq

/-- One submitted item row of the bill form: the three inputs
`number_of_bags[]`, `weight_kg[]`, `rate_per_kg[]` (`views.py`). -/
structure RawItem where
  number_of_bags : Nat
  weight_kg : ℚ
  rate_per_kg : ℚ
deriving DecidableEq

/-- A `Bill` row, seen through the fields of the totals computation
(`models.py`, class `Bill`); `items` is the bill's `BillItem` set in
`created_at` order. -/
structure Bill where
  bill_date : Int
  subtotal : ℚ
  gunny_bag_cost : ℚ
  total_amount : ℚ
  items : List BillItem
deriving DecidableEq

/-- `BillItem.save` (`models.py` lines 267-273), field part: recompute
`total_price = weight_kg * rate_per_kg` and
`gunny_cost = Decimal(number_of_bags) * settings.gunny_bag_cost`. -/
def BillItem.save (s : Settings) (it : BillItem) : BillItem :=
  { it with
    total_price := it.weight_kg * it.rate_per_kg
    gunny_cost := (it.number_of_bags : ℚ) * s.gunny_bag_cost }

/-- `BillItem.objects.create(bill=..., number_of_bags=..., weight_kg=..., rate_per_kg=...)`
builds the row from the form inputs with defaulted derived fields (`0.00`) and
runs `BillItem.save`. -/
def mkBillItem (s : Settings) (r : RawItem) : BillItem :=
  BillItem.save s ⟨r.number_of_bags, r.weight_kg, r.rate_per_kg, 0, 0⟩

/-- `Bill.calculate_totals` (`models.py` lines 217-223): subtotal and gunny cost
are the sums over the current items, `total_amount` their sum. -/
def Bill.calculate_totals (b : Bill) : Bill :=
  let s := (b.items.map (fun it => it.total_price)).sum
  let gc := (b.items.map (fun it => it.gunny_cost)).sum
  { b with subtotal := s, gunny_bag_cost := gc, total_amount := s + gc }

/-- Creating one bill item: `BillItem.save` appends the saved row (new rows are
last in `created_at` order) and then calls `self.bill.calculate_totals()`
(`models.py` lines 267-278). -/
def billItemCreate (s : Settings) (b : Bill) (r : RawItem) : Bill :=
  Bill.calculate_totals { b with items := b.items ++ [mkBillItem s r] }

/-- Re-saving an existing bill item at position `i` with edited inputs `it`:
`BillItem.save` recomputes the derived fields in place, then
`bill.calculate_totals()` runs (`models.py` lines 267-278). -/
def billItemUpdate (s : Settings) (b : Bill) (i : Nat) (it : BillItem) : Bill :=
  Bill.calculate_totals { b with items := b.items.set i (BillItem.save s it) }

/-- The item phase of `bill_edit` (`views.py` lines 325-343):
`bill.items.all().delete()` (a queryset delete, which does not call
`calculate_totals`), then each submitted row is created via
`BillItem.objects.create`, each create re-running `calculate_totals`. -/
def bill_edit_items (s : Settings) (b : Bill) (raws : List RawItem) : Bill :=
  raws.foldl (billItemCreate s) { b with items := [] }

/-- The `bill_edit` view, POST path (`views.py` lines 315-346): bills whose
`bill_date` is not today's date are refused with an error message and nothing
is changed; otherwise items are deleted and recreated.  The `Bool` is the
error flag surfaced to the caller. -/
def bill_edit_view (today : Int) (s : Settings) (b : Bill) (raws : List RawItem) :
    Bill × Bool :=
  if b.bill_date ≠ today then (b, true)
  else (bill_edit_items s b raws, false)

/-- `Bill.objects.create(shop=..., bill_date=..., notes=...)`: a fresh bill with
defaulted derived fields (`0.00`) and no items yet. -/
def newBill (bd : Int) : Bill := ⟨bd, 0, 0, 0, []⟩

/-- The `bill_create` view, POST path (`views.py` lines 266-303): if
`shop.can_create_bill()` is false the request is refused with an error message
before anything is written; otherwise the bill is created and its submitted
items added.  Returns the store's bill list and the error flag. -/
def bill_create_view (shop : Shop) (bills : List Bill) (s : Settings) (bd : Int)
    (raws : List RawItem) : List Bill × Bool :=
  if shop.can_create_bill then
    (bills ++ [raws.foldl (billItemCreate s) (newBill bd)], false)
  else (bills, true)

/-- The application state touched by the settings screen: the `Settings`
singleton and the stored bills with their items. -/
structure AppState where
  settings : Settings
  bills : List Bill
deriving DecidableEq

/-- The `update_settings` action of `settings_view` (`views.py` lines 530-539):
`settings.gunny_bag_cost = Decimal(...)` then `settings.save()`.  No bill or
bill item is touched. -/
def settings_view_update (st : AppState) (g : ℚ) : AppState :=
  { st with settings := ⟨g⟩ }

/-- The deposit rows written by `shop_create` (`views.py` lines 121-143):
`Deposit.objects.create(shop=shop, amount=Decimal(initial_deposit), ...)`.
`objects.create` inserts the row directly; Django runs the field's
`MinValueValidator(Decimal('0.01'))` only in `full_clean`/forms, which this
view never calls, so the row is stored with whatever amount was supplied. -/
def shop_create_deposits (deposits : List ℚ) (initial_deposit : ℚ) : List ℚ :=
  deposits ++ [initial_deposit]

/-- The `add_deposit` view (`views.py` lines 174-193):
`Deposit.objects.create(shop=shop, amount=Decimal(amount), ...)`, again with no
validator enforcement. -/
def add_deposit_view (deposits : List ℚ) (amount : ℚ) : List ℚ :=
  deposits ++ [amount]

/-- The invariant claimed for a bill's derived fields: subtotal and gunny cost
are the sums over the current items and `total_amount` is their sum. -/
def totalsInvariant (b : Bill) : Prop :=
  b.subtotal = (b.items.map (fun it => it.total_price)).sum ∧
  b.gunny_bag_cost = (b.items.map (fun it => it.gunny_cost)).sum ∧
  b.total_amount = b.subtotal + b.gunny_bag_cost

/-- Lexicographic comparison of character-code lists: Python `<` on strings,
and the order used by `order_by('-bill_number')` on a char column. -/
def listLt : List Nat → List Nat → Bool
  | _, [] => false
  | [], _ :: _ => true
  | a :: as, b :: bs => decide (a < b) || (a == b && listLt as bs)

/-- One step of taking the greatest element, used to model
`order_by('-bill_number').first()`. -/
def maxStep (acc : Option (List Nat)) (s : List Nat) : Option (List Nat) :=
  match acc with
  | none => some s
  | some m => if listLt m s then some s else some m

/-- `order_by('-bill_number').first()`: the lexicographically greatest element
of the list, `none` when the list is empty. -/
def maxStr (l : List (List Nat)) : Option (List Nat) :=
  l.foldl maxStep none

/-- Decimal digit characters of `n`, most significant first (fuel-driven so the
definition computes by `rfl`/`decide`). -/
def natDigitsAux : Nat → Nat → List Nat
  | 0, _ => []
  | fuel + 1, n => if n < 10 then [48 + n] else natDigitsAux fuel (n / 10) ++ [48 + n % 10]

/-- Decimal digit characters of `n`, most significant first. -/
def natDigits (n : Nat) : List Nat := natDigitsAux (n + 1) n

/-- Python `f'{n:04d}'`: the decimal digits of `n`, left-padded with `'0'`
(code 48) to a minimum width of 4. -/
def pad04 (n : Nat) : List Nat :=
  List.replicate (4 - (natDigits n).length) 48 ++ natDigits n

/-- Python `int(...)` on a digit string: fold the digits into a number. -/
def digitsToNat (l : List Nat) : Nat :=
  l.foldl (fun acc c => acc * 10 + (c - 48)) 0

/-- Python `s.split('-')[-1]`: the segment after the last hyphen (code 45);
the whole string when it has no hyphen. -/
def lastField (l : List Nat) : List Nat :=
  (l.reverse.takeWhile (fun c => c != 45)).reverse

/-- The filter string `f'BILL-{date_str}'` (`models.py` line 203):
`"BILL-"` (codes 66,73,76,76,45) followed by the date stamp. -/
def BILLpref (d : List Nat) : List Nat := [66, 73, 76, 76, 45] ++ d

/-- Bill-number generation in `Bill.save` (`models.py` lines 197-212): filter
all stored bill numbers by today's prefix, take the `order_by`-greatest, parse
the segment after its last `'-'`, add one (start at 1 when no bill matches),
and format as `f'BILL-{date_str}-{new_num:04d}'`. -/
def genBillNumber (date_str : List Nat) (existing : List (List Nat)) : List Nat :=
  let matching := existing.filter (fun x => (BILLpref date_str).isPrefixOf x)
  let new_num : Nat :=
    match maxStr matching with
    | none => 1
    | some last_bill => digitsToNat (lastField last_bill) + 1
  BILLpref date_str ++ 45 :: pad04 new_num

/-- A bill as the numbering routine sees it: owning shop, user-supplied
`bill_date`, and the stored `bill_number` (empty list = blank, not yet
assigned). -/
structure NumBill where
  shop : Nat
  bill_date : Int
  bill_number : List Nat
deriving DecidableEq

/-- The number-assignment guard of `Bill.save` (`models.py` line 198):
`if not self.bill_number:` generate a number, otherwise keep the stored one. -/
def billSaveNumber (date_str : List Nat) (existing : List (List Nat))
    (current : List Nat) : List Nat :=
  if current = [] then genBillNumber date_str existing else current

/-- `Bill.save` on a new bill: assign the number (scanning `Bill.objects`,
i.e. every stored bill regardless of shop) and insert the row. -/
def billSave (date_str : List Nat) (st : List NumBill) (b : NumBill) : List NumBill :=
  st ++ [{ b with
    bill_number := billSaveNumber date_str (st.map (fun x => x.bill_number)) b.bill_number }]

/-- Sequential (non-concurrent) creation of one bill per request: each request
`(shop, bill_date)` saves a fresh bill with a blank number. -/
def createSeq (date_str : List Nat) (reqs : List (Nat × Int)) (st : List NumBill) :
    List NumBill :=
  reqs.foldl (fun acc r => billSave date_str acc ⟨r.1, r.2, []⟩) st

/-- The `i`-th bill number of a day: `BILL-<d>-<i zero-padded to 4>`. -/
def dayNum (d : List Nat) (i : Nat) : List Nat := BILLpref d ++ 45 :: pad04 i

/-- The day's first `k` bill numbers, in creation order. -/
def dayNums (d : List Nat) (k : Nat) : List (List Nat) :=
  (List.range k).map (fun i => dayNum d (i + 1))

/-- The date stamp `"20240101"` as character codes. -/
def d20240101 : List Nat := [50, 48, 50, 52, 48, 49, 48, 49]

/-- A concrete bill used in scenarios: one item (3 bags, 100 kg at 20/kg,
gunny cost 30 computed at setting 10), totals 2000 / 30 / 2030. -/
def sampleBill : Bill := ⟨0, 2000, 30, 2030, [⟨3, 100, 20, 2000, 30⟩]⟩

/-- A shop with no deposits, one bill of amount 1, and no payments. -/
def sampleShopOwing : Shop := ⟨[], [1], []⟩

lemma filter_eq_nil_of_false {α : Type} (p : α → Bool) :
    ∀ l : List α, (∀ x ∈ l, p x = false) → l.filter p = [] := by
  intro l h
  induction l with
  | nil => rfl
  | cons a t ih =>
    have ha : p a = false := h a (List.mem_cons_self a t)
    simp only [List.filter_cons, ha, Bool.false_eq_true, if_false]
    exact ih (fun x hx => h x (List.mem_cons_of_mem a hx))

lemma filter_eq_self_of_true {α : Type} (p : α → Bool) :
    ∀ l : List α, (∀ x ∈ l, p x = true) → l.filter p = l := by
  intro l h
  induction l with
  | nil => rfl
  | cons a t ih =>
    have ha : p a = true := h a (List.mem_cons_self a t)
    simp only [List.filter_cons, ha, if_true]
    rw [ih (fun x hx => h x (List.mem_cons_of_mem a hx))]

lemma isPrefixOf_append_self : ∀ p t : List Nat, p.isPrefixOf (p ++ t) = true := by
  intro p t
  induction p with
  | nil => simp [List.isPrefixOf]
  | cons a q ih => simp [List.isPrefixOf, ih]

lemma takeWhile_middle {α : Type} (p : α → Bool) :
    ∀ (l : List α) (a : α) (r : List α), (∀ c ∈ l, p c = true) → p a = false →
      ((l ++ a :: r).takeWhile p) = l := by
  intro l a r hl ha
  induction l with
  | nil => simp [List.takeWhile_cons, ha]
  | cons c t ih =>
    have hc : p c = true := hl c (List.mem_cons_self c t)
    simp only [List.cons_append, List.takeWhile_cons, hc, if_true]
    rw [ih (fun x hx => hl x (List.mem_cons_of_mem c hx))]

lemma lastField_append (x y : List Nat) (hy : ∀ c ∈ y, c ≠ 45) :
    lastField (x ++ 45 :: y) = y := by
  unfold lastField
  have hrev : (x ++ 45 :: y).reverse = y.reverse ++ 45 :: x.reverse := by
    simp
  rw [hrev, takeWhile_middle _ y.reverse 45 x.reverse ?hall ?h45, List.reverse_reverse]
  case hall =>
    intro c hc
    have : c ∈ y := List.mem_reverse.mp hc
    simp [bne_iff_ne, hy c this]
  case h45 => simp

lemma natDigitsAux_congr :
    ∀ f1 f2 n : Nat, n < f1 → n < f2 → natDigitsAux f1 n = natDigitsAux f2 n := by
  intro f1
  induction f1 with
  | zero => intro f2 n h1 _; omega
  | succ f1 ih =>
    intro f2 n h1 h2
    cases f2 with
    | zero => omega
    | succ f2 =>
      by_cases hlt : n < 10
      · simp [natDigitsAux, hlt]
      · have hd : n / 10 < n := Nat.div_lt_self (by omega) (by omega)
        simp only [natDigitsAux, hlt, if_false]
        rw [ih f2 (n / 10) (by omega) (by omega)]

lemma natDigits_lt_10 (n : Nat) (h : n < 10) : natDigits n = [48 + n] := by
  simp [natDigits, natDigitsAux, h]

lemma natDigits_ge_10 (n : Nat) (h : 10 ≤ n) :
    natDigits n = natDigits (n / 10) ++ [48 + n % 10] := by
  have hd : n / 10 < n := Nat.div_lt_self (by omega) (by omega)
  have h1 : natDigits n = natDigitsAux n (n / 10) ++ [48 + n % 10] := by
    simp [natDigits, natDigitsAux, Nat.not_lt.mpr h]
  rw [h1, natDigitsAux_congr n (n / 10 + 1) (n / 10) (by omega) (by omega)]
  rfl

lemma pad04_eq (n : Nat) (h : n ≤ 9999) :
    pad04 n = [48 + n / 1000, 48 + n / 100 % 10, 48 + n / 10 % 10, 48 + n % 10] := by
  rcases Nat.lt_or_ge n 10 with h1 | h1
  · rw [pad04, natDigits_lt_10 n h1]
    simp only [List.length_cons, List.length_nil]
    norm_num [List.replicate]
    omega
  rcases Nat.lt_or_ge n 100 with h2 | h2
  · rw [pad04, natDigits_ge_10 n h1, natDigits_lt_10 (n / 10) (by omega)]
    simp only [List.length_append, List.length_cons, List.length_nil]
    norm_num [List.replicate]
    omega
  rcases Nat.lt_or_ge n 1000 with h3 | h3
  · rw [pad04, natDigits_ge_10 n h1, natDigits_ge_10 (n / 10) (by omega),
      natDigits_lt_10 (n / 10 / 10) (by omega)]
    simp only [List.length_append, List.length_cons, List.length_nil]
    norm_num [List.replicate]
    omega
  · rw [pad04, natDigits_ge_10 n h1, natDigits_ge_10 (n / 10) (by omega),
      natDigits_ge_10 (n / 10 / 10) (by omega),
      natDigits_lt_10 (n / 10 / 10 / 10) (by omega)]
    simp only [List.length_append, List.length_cons, List.length_nil]
    norm_num [List.replicate]
    omega

lemma pad04_length (n : Nat) (h : n ≤ 9999) : (pad04 n).length = 4 := by
  rw [pad04_eq n h]
  rfl

lemma pad04_digit_range (n : Nat) (h : n ≤ 9999) :
    ∀ c ∈ pad04 n, 48 ≤ c ∧ c ≤ 57 := by
  rw [pad04_eq n h]
  intro c hc
  simp only [List.mem_cons, List.not_mem_nil, or_false] at hc
  rcases hc with rfl | rfl | rfl | rfl <;> omega

lemma listLt_append_left : ∀ p x y : List Nat, listLt (p ++ x) (p ++ y) = listLt x y := by
  intro p x y
  induction p with
  | nil => rfl
  | cons a q ih => simp [listLt, ih]

lemma pad04_lt (m n : Nat) (hmn : m < n) (hn : n ≤ 9999) :
    listLt (pad04 m) (pad04 n) = true := by
  rw [pad04_eq m (by omega), pad04_eq n hn]
  simp only [listLt, Bool.or_eq_true, Bool.and_eq_true, decide_eq_true_eq, beq_iff_eq]
  omega

lemma digitsToNat_pad04 (n : Nat) (h : n ≤ 9999) : digitsToNat (pad04 n) = n := by
  rw [pad04_eq n h]
  simp only [digitsToNat, List.foldl_cons, List.foldl_nil]
  omega

lemma dayNum_lt (d : List Nat) (i j : Nat) (hij : i < j) (hj : j ≤ 9999) :
    listLt (dayNum d i) (dayNum d j) = true := by
  have hi : dayNum d i = (BILLpref d ++ [45]) ++ pad04 i := by
    simp [dayNum]
  have hjj : dayNum d j = (BILLpref d ++ [45]) ++ pad04 j := by
    simp [dayNum]
  rw [hi, hjj, listLt_append_left]
  exact pad04_lt i j hij hj

lemma foldl_maxStep_mem :
    ∀ (l : List (List Nat)) (acc : Option (List Nat)) (z : List Nat),
      l.foldl maxStep acc = some z → acc = some z ∨ z ∈ l := by
  intro l
  induction l with
  | nil => intro acc z h; exact Or.inl h
  | cons s t ih =>
    intro acc z h
    rcases ih (maxStep acc s) z h with h1 | h1
    · cases acc with
      | none =>
        simp only [maxStep] at h1
        obtain rfl := Option.some_inj.mp h1
        exact Or.inr (List.mem_cons_self _ _)
      | some m =>
        simp only [maxStep] at h1
        by_cases hlt : listLt m s = true
        · rw [if_pos hlt] at h1
          obtain rfl := Option.some_inj.mp h1
          exact Or.inr (List.mem_cons_self _ _)
        · rw [if_neg hlt] at h1
          exact Or.inl h1
    · exact Or.inr (List.mem_cons_of_mem s h1)

lemma maxStr_concat (l : List (List Nat)) (m : List Nat)
    (h : ∀ x ∈ l, listLt x m = true) : maxStr (l ++ [m]) = some m := by
  unfold maxStr
  rw [List.foldl_append]
  cases hf : l.foldl maxStep none with
  | none => rfl
  | some z =>
    have hz : z ∈ l := by
      rcases foldl_maxStep_mem l none z hf with h1 | h1
      · exact absurd h1 (by simp)
      · exact h1
    simp [List.foldl, maxStep, h z hz]

lemma dayNums_succ (d : List Nat) (k : Nat) :
    dayNums d (k + 1) = dayNums d k ++ [dayNum d (k + 1)] := by
  simp [dayNums, List.range_succ]

lemma gen_step (d : List Nat) (oNums : List (List Nat)) (k : Nat)
    (ho : ∀ x ∈ oNums, (BILLpref d).isPrefixOf x = false) (hk : k ≤ 9999) :
    genBillNumber d (oNums ++ dayNums d k) = dayNum d (k + 1) := by
  have hfo : oNums.filter (fun x => (BILLpref d).isPrefixOf x) = [] :=
    filter_eq_nil_of_false _ oNums ho
  have hfd : (dayNums d k).filter (fun x => (BILLpref d).isPrefixOf x) = dayNums d k := by
    refine filter_eq_self_of_true _ _ ?_
    intro x hx
    rcases List.mem_map.mp hx with ⟨i, _, rfl⟩
    exact isPrefixOf_append_self (BILLpref d) (45 :: pad04 (i + 1))
  cases k with
  | zero =>
    simp only [genBillNumber, dayNums, List.range_zero, List.map_nil, List.append_nil,
      hfo]
    rfl
  | succ k =>
    have hmax : maxStr (dayNums d (k + 1)) = some (dayNum d (k + 1)) := by
      rw [dayNums_succ]
      refine maxStr_concat _ _ ?_
      intro x hx
      rcases List.mem_map.mp hx with ⟨i, hi, rfl⟩
      have : i < k := List.mem_range.mp hi
      exact dayNum_lt d (i + 1) (k + 1) (by omega) hk
    have hlast : lastField (dayNum d (k + 1)) = pad04 (k + 1) := by
      refine lastField_append (BILLpref d) (pad04 (k + 1)) ?_
      intro c hc
      have := pad04_digit_range (k + 1) hk c hc
      omega
    simp only [genBillNumber, List.filter_append, hfo, hfd, List.nil_append, hmax,
      hlast, digitsToNat_pad04 (k + 1) hk]
    rfl

lemma createSeq_spec (d : List Nat) :
    ∀ (reqs : List (Nat × Int)) (k : Nat) (others rest : List NumBill),
      (∀ b ∈ others, (BILLpref d).isPrefixOf b.bill_number = false) →
      rest.map (fun b => b.bill_number) = dayNums d k →
      k + reqs.length ≤ 10000 →
      (createSeq d reqs (others ++ rest)).map (fun b => b.bill_number) =
        others.map (fun b => b.bill_number) ++ dayNums d (k + reqs.length) := by
  intro reqs
  induction reqs with
  | nil =>
    intro k others rest ho hrest _
    simp [createSeq, hrest]
  | cons r rs ih =>
    intro k others rest ho hrest hlen
    have hnums : (others ++ rest).map (fun b => b.bill_number) =
        (others.map (fun b => b.bill_number)) ++ dayNums d k := by
      rw [List.map_append, hrest]
    have honums : ∀ x ∈ others.map (fun b => b.bill_number),
        (BILLpref d).isPrefixOf x = false := by
      intro x hx
      rcases List.mem_map.mp hx with ⟨b, hb, rfl⟩
      exact ho b hb
    have hgen : genBillNumber d ((others ++ rest).map (fun b => b.bill_number)) =
        dayNum d (k + 1) := by
      rw [hnums]
      exact gen_step d _ k honums (by simp at hlen; omega)
    rw [List.map_append] at hgen
    have hsave : billSave d (others ++ rest) ⟨r.1, r.2, []⟩ =
        others ++ (rest ++ [(⟨r.1, r.2, dayNum d (k + 1)⟩ : NumBill)]) := by
      simp [billSave, billSaveNumber, hgen, List.append_assoc]
    have hrest2 : (rest ++ [(⟨r.1, r.2, dayNum d (k + 1)⟩ : NumBill)]).map
        (fun b => b.bill_number) = dayNums d (k + 1) := by
      rw [List.map_append, hrest, dayNums_succ]
      rfl
    have := ih (k + 1) others (rest ++ [(⟨r.1, r.2, dayNum d (k + 1)⟩ : NumBill)])
      ho hrest2 (by simp at hlen ⊢; omega)
    calc (createSeq d (r :: rs) (others ++ rest)).map (fun b => b.bill_number)
        = (createSeq d rs (billSave d (others ++ rest) ⟨r.1, r.2, []⟩)).map
            (fun b => b.bill_number) := rfl
      _ = others.map (fun b => b.bill_number) ++ dayNums d (k + 1 + rs.length) := by
            rw [hsave]; exact this
      _ = others.map (fun b => b.bill_number) ++ dayNums d (k + (rs.length + 1)) := by
            congr 2
            omega

lemma totalsInvariant_calculate_totals (b : Bill) :
    totalsInvariant (Bill.calculate_totals b) := by
  refine ⟨rfl, rfl, rfl⟩

lemma items_calculate_totals (b : Bill) : (Bill.calculate_totals b).items = b.items := rfl

lemma foldl_billItemCreate_items (s : Settings) :
    ∀ (raws : List RawItem) (b : Bill),
      (raws.foldl (billItemCreate s) b).items = b.items ++ raws.map (mkBillItem s) := by
  intro raws
  induction raws with
  | nil => intro b; simp
  | cons r rs ih =>
    intro b
    simp only [List.foldl_cons, ih, List.map_cons]
    simp [billItemCreate, items_calculate_totals]

lemma totalsInvariant_foldl_nonempty (s : Settings) :
    ∀ (raws : List RawItem) (b : Bill), raws ≠ [] →
      totalsInvariant (raws.foldl (billItemCreate s) b) := by
  intro raws
  induction raws with
  | nil => intro b h; exact absurd rfl h
  | cons r rs ih =>
    intro b _
    cases rs with
    | nil => exact totalsInvariant_calculate_totals _
    | cons r2 rs2 =>
      exact ih (billItemCreate s b r) (by simp)

lemma mkBillItem_gunny (s : Settings) (r : RawItem) :
    (mkBillItem s r).gunny_cost = (r.number_of_bags : ℚ) * s.gunny_bag_cost := rfl

lemma mkBillItem_bags (s : Settings) (r : RawItem) :
    (mkBillItem s r).number_of_bags = r.number_of_bags := rfl

/-- Claim C1: for every shop, `can_create_bill(shop)` returns true if and only
if `pending_amount(shop) < credit_limit(shop)`, where `pending_amount` is the
sum of `total_amount` over the shop's bills minus the sum of `amount` over its
payments, and `credit_limit` is five times the sum of `amount` over its
deposits. -/
theorem c1_can_create_bill_iff (s : Shop) :
    s.can_create_bill = true ↔ s.bills.sum - s.payments.sum < s.deposits.sum * 5 := by
  simp [Shop.can_create_bill, Shop.pending_amount, Shop.credit_limit,
    Shop.total_bills, Shop.total_payments, Shop.total_deposits]

/-- Claim C4: after any `BillItem.save`, `total_price` equals
`weight_kg * rate_per_kg` exactly and `gunny_cost` equals `number_of_bags`
times the `gunny_bag_cost` setting current at write time; updating the global
setting afterwards rewrites only the `Settings` singleton and leaves every
stored bill (and so every stored item) unchanged. -/
theorem c4_bill_item_fields (s : Settings) (it : BillItem) (st : AppState) (g : ℚ) :
    (BillItem.save s it).total_price = it.weight_kg * it.rate_per_kg ∧
    (BillItem.save s it).gunny_cost = (it.number_of_bags : ℚ) * s.gunny_bag_cost ∧
    (settings_view_update st g).bills = st.bills :=
  ⟨rfl, rfl, rfl⟩

/-- Claim C5, counterexample: a shop with zero deposits, zero bills and one
payment of 1 has `pending_amount = -1 < 0 = credit_limit`, so
`can_create_bill` returns `true` — refuting "for every shop with zero
deposits, `can_create_bill` returns false regardless of the shop's bills and
payments". -/
theorem c5_counterexample :
    Shop.total_deposits ⟨[], [], [1]⟩ = 0 ∧
    Shop.can_create_bill ⟨[], [], [1]⟩ = true := by
  constructor
  · rfl
  · simp only [Shop.can_create_bill, Shop.pending_amount, Shop.credit_limit,
      Shop.total_bills, Shop.total_payments, Shop.total_deposits,
      decide_eq_true_eq]
    norm_num

/-- Claim C5, amended: for every shop with zero deposits whose total payments
do not exceed its total bills, `can_create_bill` returns false (a shop with no
deposit and no overpayment can never create a bill); with zero deposits, zero
bills and zero payments, `pending_amount = 0` and `credit_limit = 0`.  (When
payments exceed bills, `pending_amount` is negative and the gate opens.) -/
theorem c5_zero_deposits_gate (s : Shop) (hd : s.deposits = [])
    (hp : s.payments.sum ≤ s.bills.sum) :
    s.can_create_bill = false ∧ s.credit_limit = 0 ∧
    (s.bills = [] → s.payments = [] → s.pending_amount = 0) := by
  have hcl : s.credit_limit = 0 := by
    simp [Shop.credit_limit, Shop.total_deposits, hd]
  refine ⟨?_, hcl, ?_⟩
  · unfold Shop.can_create_bill
    rw [hcl, decide_eq_false_iff_not]
    simp only [Shop.pending_amount, Shop.total_bills, Shop.total_payments, not_lt]
    linarith
  · intro hb hpp
    simp [Shop.pending_amount, Shop.total_bills, Shop.total_payments, hb, hpp]

/-- Claim C5, witness: the amended statement at the empty shop. -/
theorem c5_zero_deposits_gate_witness :
    ((⟨[], [], []⟩ : Shop).payments.sum ≤ (⟨[], [], []⟩ : Shop).bills.sum) ∧
    Shop.can_create_bill ⟨[], [], []⟩ = false :=
  ⟨le_refl _, (c5_zero_deposits_gate ⟨[], [], []⟩ rfl (le_refl _)).1⟩

/-- Claim C6: for every shop for which `can_create_bill` is false, the
`bill_create` view refuses the request before writing anything: the stored
bill list is returned unchanged (hence no `Bill` and no `BillItem` row is
written) together with the error flag. -/
theorem c6_credit_gate_refusal (shop : Shop) (bills : List Bill) (s : Settings)
    (bd : Int) (raws : List RawItem) (h : shop.can_create_bill = false) :
    bill_create_view shop bills s bd raws = (bills, true) := by
  simp [bill_create_view, h]

lemma sampleShopOwing_gate : Shop.can_create_bill sampleShopOwing = false := by
  simp only [sampleShopOwing, Shop.can_create_bill, Shop.pending_amount,
    Shop.credit_limit, Shop.total_bills, Shop.total_payments,
    Shop.total_deposits, decide_eq_false_iff_not, not_lt]
  norm_num

/-- Claim C6, witness: a shop owing 1 with no deposits is refused. -/
theorem c6_credit_gate_refusal_witness :
    Shop.can_create_bill sampleShopOwing = false ∧
    bill_create_view sampleShopOwing [] ⟨10⟩ 0 [] = ([], true) :=
  ⟨sampleShopOwing_gate,
    c6_credit_gate_refusal sampleShopOwing [] ⟨10⟩ 0 [] sampleShopOwing_gate⟩

/-- Claim C7: evidence for the code bug.  `shop_create` (and `add_deposit`)
store the supplied amount through `objects.create` without running the
`MinValueValidator(Decimal('0.01'))` declared on `Deposit.amount`, so a shop
created with `initial_deposit = 0` yields a stored deposit row of amount
`0.00`, violating the claimed minimum `0.01`. -/
theorem c7_zero_deposit_written :
    shop_create_deposits [] 0 = [0] ∧ add_deposit_view [] 0 = [0] ∧
    ¬ ((1 : ℚ) / 100 ≤ 0) :=
  ⟨rfl, rfl, by norm_num⟩

/-- Claim C8: for every bill whose `bill_date` is not the current date, the
`bill_edit` view refuses with an error and returns the bill — items and
derived totals included — unchanged; only bills dated today reach the edit
path. -/
theorem c8_edit_only_today (today : Int) (s : Settings) (b : Bill)
    (raws : List RawItem) (h : b.bill_date ≠ today) :
    bill_edit_view today s b raws = (b, true) := by
  simp [bill_edit_view, h]

/-- Claim C8, witness: a bill dated 0 cannot be edited on day 1. -/
theorem c8_edit_only_today_witness :
    sampleBill.bill_date ≠ 1 ∧
    bill_edit_view 1 ⟨10⟩ sampleBill [] = (sampleBill, true) :=
  ⟨by decide, c8_edit_only_today 1 ⟨10⟩ sampleBill [] (by decide)⟩

/-- Claim C2, counterexample: editing a bill and submitting no items deletes
all items without ever calling `calculate_totals` (the queryset delete does
not trigger it and no item create runs), so the bill keeps its previous
derived totals: `sampleBill` ends with no items but `subtotal = 2000` and
`total_amount = 2030`, not `0.00` as claimed. -/
theorem c2_counterexample :
    (bill_edit_items ⟨10⟩ sampleBill []).items = [] ∧
    (bill_edit_items ⟨10⟩ sampleBill []).subtotal = 2000 ∧
    (bill_edit_items ⟨10⟩ sampleBill []).total_amount = 2030 ∧
    ¬ ((2000 : ℚ) = 0 ∧ (2030 : ℚ) = 0) :=
  ⟨rfl, rfl, rfl, by norm_num⟩

/-- Claim C2, amended: `Bill.subtotal` equals the sum of `total_price` over
current items, `Bill.gunny_bag_cost` the sum of `gunny_cost`, and
`Bill.total_amount` their sum, after every item create, after every item
update, and after every edit that submits at least one item.  (An edit that
deletes all items and recreates none leaves the previous totals in place
rather than resetting them to `0.00`.) -/
theorem c2_totals_after_item_change (s : Settings) (b : Bill) (r : RawItem)
    (i : Nat) (it : BillItem) (raws : List RawItem) (h : raws ≠ []) :
    totalsInvariant (billItemCreate s b r) ∧
    totalsInvariant (billItemUpdate s b i it) ∧
    totalsInvariant (bill_edit_items s b raws) :=
  ⟨totalsInvariant_calculate_totals _, totalsInvariant_calculate_totals _,
    totalsInvariant_foldl_nonempty s raws _ h⟩

/-- Claim C2, witness: the amended statement at a one-item edit. -/
theorem c2_totals_after_item_change_witness :
    (([⟨3, 100, 20⟩] : List RawItem) ≠ []) ∧
    totalsInvariant (bill_edit_items ⟨10⟩ sampleBill [⟨3, 100, 20⟩]) :=
  ⟨by simp,
    (c2_totals_after_item_change ⟨10⟩ sampleBill ⟨3, 100, 20⟩ 0
      ⟨3, 100, 20, 0, 0⟩ [⟨3, 100, 20⟩] (by simp)).2.2⟩

/-- Claim C9: editing a bill deletes all existing items and recreates them
from the submitted inputs, so after the edit the item list is exactly the
submitted rows passed through `BillItem.save` under the setting current at
edit time: every item's `gunny_cost` is `number_of_bags` times that setting,
and (when at least one item is submitted) the bill's recomputed
`gunny_bag_cost` is the corresponding sum — a setting change made after the
bill was first created propagates into the items and totals on edit. -/
theorem c9_edit_recreates_items (s : Settings) (b : Bill) (raws : List RawItem)
    (h : raws ≠ []) :
    (bill_edit_items s b raws).items = raws.map (mkBillItem s) ∧
    (∀ it ∈ (bill_edit_items s b raws).items,
      it.gunny_cost = (it.number_of_bags : ℚ) * s.gunny_bag_cost) ∧
    (bill_edit_items s b raws).gunny_bag_cost =
      (raws.map (fun r => (r.number_of_bags : ℚ) * s.gunny_bag_cost)).sum := by
  have hitems : (bill_edit_items s b raws).items = raws.map (mkBillItem s) := by
    rw [bill_edit_items, foldl_billItemCreate_items]
    rfl
  refine ⟨hitems, ?_, ?_⟩
  · intro it hit
    rw [hitems] at hit
    rcases List.mem_map.mp hit with ⟨r, _, rfl⟩
    rfl
  · have hinv := totalsInvariant_foldl_nonempty s raws { b with items := [] } h
    calc (bill_edit_items s b raws).gunny_bag_cost
        = ((bill_edit_items s b raws).items.map (fun it => it.gunny_cost)).sum :=
          hinv.2.1
      _ = ((raws.map (mkBillItem s)).map (fun it => it.gunny_cost)).sum := by
          rw [hitems]
      _ = (raws.map (fun r => (r.number_of_bags : ℚ) * s.gunny_bag_cost)).sum := by
          rw [List.map_map]
          rfl

/-- Claim C9, witness: re-editing the sample bill (item gunny costs written at
setting 10) under setting 12 gives `gunny_bag_cost = 3 * 12 = 36`. -/
theorem c9_edit_recreates_items_witness :
    (([⟨3, 100, 20⟩] : List RawItem) ≠ []) ∧
    (bill_edit_items ⟨12⟩ sampleBill [⟨3, 100, 20⟩]).gunny_bag_cost = 36 :=
  ⟨by simp,
    ((c9_edit_recreates_items ⟨12⟩ sampleBill [⟨3, 100, 20⟩] (by simp)).2.2).trans
      (by norm_num)⟩

/-- Claim C3, counterexample: under sequential creation the 10000th bill of a
day is assigned number `BILL-20240101-10000`, whose trailing counter field has
5 digits — refuting "every bill saved without a pre-set bill_number receives a
number ... where NNNN is a 4-digit zero-padded counter". -/
theorem c3_counterexample :
    (BILLpref d20240101 ++ 45 :: pad04 10000) ∈
      (createSeq d20240101 (List.replicate 10000 ((0 : Nat), (0 : Int))) []).map
        (fun b => b.bill_number) ∧
    (lastField (BILLpref d20240101 ++ 45 :: pad04 10000)).length ≠ 4 := by
  constructor
  · have hspec := createSeq_spec d20240101 (List.replicate 10000 (0, 0)) 0 [] []
      (by simp) (by simp [dayNums]) (by rw [List.length_replicate])
    simp only [List.length_replicate, List.append_nil, List.map_nil,
      List.nil_append, Nat.zero_add] at hspec
    rw [hspec]
    have hmem : dayNum d20240101 10000 ∈ dayNums d20240101 10000 := by
      simp only [dayNums, List.mem_map]
      exact ⟨9999, List.mem_range.mpr (by norm_num), rfl⟩
    exact hmem
  · have hpad : pad04 10000 = [49, 48, 48, 48, 48] := by decide
    have hl : lastField (BILLpref d20240101 ++ 45 :: pad04 10000) = pad04 10000 := by
      refine lastField_append _ _ ?_
      intro c hc
      rw [hpad] at hc
      simp only [List.mem_cons, List.not_mem_nil, or_false] at hc
      rcases hc with rfl | rfl | rfl | rfl | rfl <;> omega
    rw [hl, hpad]
    decide

/-- Claim C3, amended: under sequential (non-concurrent) creation, starting
from a store whose bills do not match the day's `BILL-<date>` prefix, the
first `j ≤ 9999` bills saved without a pre-set `bill_number` receive exactly
the numbers `BILL-<date>-0001 ... BILL-<date>-<j>` in order — suffixes zero-
padded to 4 digits, starting at 0001, strictly increasing with no gaps — the
date stamp being the creation date (the submitted `bill_date`s in `reqs` are
arbitrary and do not affect the numbers); and a bill saved with a number
already set keeps it.  (The 10000th bill of a day receives the 5-digit suffix
`10000`, so the 4-digit format holds only for the first 9999.) -/
theorem c3_sequential_numbering (d : List Nat) (others : List NumBill)
    (reqs : List (Nat × Int))
    (ho : ∀ b ∈ others, (BILLpref d).isPrefixOf b.bill_number = false)
    (hlen : reqs.length ≤ 9999) :
    (createSeq d reqs others).map (fun b => b.bill_number) =
      others.map (fun b => b.bill_number) ++ dayNums d reqs.length ∧
    (∀ i ≤ reqs.length, (pad04 i).length = 4 ∧ digitsToNat (pad04 i) = i) ∧
    (∀ (st : List NumBill) (b : NumBill), b.bill_number ≠ [] →
      billSave d st b = st ++ [b]) := by
  refine ⟨?_, ?_, ?_⟩
  · have hspec := createSeq_spec d reqs 0 others [] ho (by simp [dayNums])
      (by omega)
    simpa using hspec
  · intro i hi
    exact ⟨pad04_length i (by omega), digitsToNat_pad04 i (by omega)⟩
  · intro st b hb
    simp [billSave, billSaveNumber, hb]

/-- Claim C3, witness: two bills created the same day from an empty store get
`BILL-20240101-0001` and `BILL-20240101-0002`. -/
theorem c3_sequential_numbering_witness :
    (([(0, 10), (1, 20)] : List (Nat × Int)).length ≤ 9999) ∧
    (createSeq d20240101 [(0, 10), (1, 20)] []).map (fun b => b.bill_number) =
      [[66, 73, 76, 76, 45, 50, 48, 50, 52, 48, 49, 48, 49, 45, 48, 48, 48, 49],
       [66, 73, 76, 76, 45, 50, 48, 50, 52, 48, 49, 48, 49, 45, 48, 48, 48, 50]] := by
  constructor
  · norm_num
  · exact ((c3_sequential_numbering d20240101 [] [(0, 10), (1, 20)] (by simp)
      (by norm_num)).1).trans (by decide)

/-- Claim C10: the per-day bill-number counter is global to the whole store:
`Bill.save` scans `Bill.objects` (all shops), so two bills created the same
day by two different shops receive the distinct consecutive suffixes 0001 and
0002 drawn from the one shared sequence. -/
theorem c10_shared_day_sequence (d : List Nat) (others : List NumBill)
    (s1 s2 : Nat) (bd1 bd2 : Int)
    (ho : ∀ b ∈ others, (BILLpref d).isPrefixOf b.bill_number = false)
    (hs : s1 ≠ s2) :
    billSave d (billSave d others ⟨s1, bd1, []⟩) ⟨s2, bd2, []⟩ =
      others ++ [⟨s1, bd1, dayNum d 1⟩, ⟨s2, bd2, dayNum d 2⟩] := by
  have honums : ∀ x ∈ others.map (fun b => b.bill_number),
      (BILLpref d).isPrefixOf x = false := by
    intro x hx
    rcases List.mem_map.mp hx with ⟨b, hb, rfl⟩
    exact ho b hb
  have h1 : genBillNumber d (others.map (fun b => b.bill_number)) = dayNum d 1 := by
    have := gen_step d (others.map (fun b => b.bill_number)) 0 honums (by omega)
    simpa [dayNums] using this
  have hsave1 : billSave d others ⟨s1, bd1, []⟩ =
      others ++ [(⟨s1, bd1, dayNum d 1⟩ : NumBill)] := by
    simp [billSave, billSaveNumber, h1]
  rw [hsave1]
  have h2 : genBillNumber d (others.map (fun b => b.bill_number) ++ [dayNum d 1]) =
      dayNum d 2 := by
    have hd1 : [dayNum d 1] = dayNums d 1 := by
      simp [dayNums, List.range_succ]
    rw [hd1]
    exact gen_step d _ 1 honums (by omega)
  simp [billSave, billSaveNumber, h2, List.append_assoc]

/-- Claim C10, witness: two different shops, same day, empty store: the two
bills get `BILL-20240101-0001` and `BILL-20240101-0002`. -/
theorem c10_shared_day_sequence_witness :
    ((0 : Nat) ≠ 1) ∧
    billSave d20240101 (billSave d20240101 [] ⟨0, 5, []⟩) ⟨1, 7, []⟩ =
      [⟨0, 5, [66, 73, 76, 76, 45, 50, 48, 50, 52, 48, 49, 48, 49, 45, 48, 48, 48, 49]⟩,
       ⟨1, 7, [66, 73, 76, 76, 45, 50, 48, 50, 52, 48, 49, 48, 49, 45, 48, 48, 48, 50]⟩] := by
  refine ⟨by decide, ?_⟩
  exact (c10_shared_day_sequence d20240101 [] 0 1 5 7 (by simp) (by decide)).trans
    (by decide)

end LMS
